import Mathlib

/-!
Shallow embedding of `oceanwaves/wavedroid.py` (`WaveDroidReader`): the
header/body line parser and the directional-spectrum reconstruction.

Parsing is modelled over `String`/`List Char` with exact rationals (`ℚ`)
standing for Python floats parsed from decimal literals; the spectrum
computation (`compute_spectrum`) is modelled over `ℝ`, with `Real.cos`,
`Real.sin` and `Real.pi` standing for the numpy float routines.

Python exceptions are modelled by `PyErr`: `indexError` stands for
`IndexError` (out-of-bounds list access), `formatError` stands for the
value-shape failures (`AttributeError` from `None.group()` when a regex
finds no match, `ValueError` from failed `int`/`float`/`strptime`
conversion); the carried message names the Python exception class.
-/

namespace Wavedroid

/-- Python error classes relevant to the reader, as raised by the source. -/
inductive PyErr where
  | indexError : PyErr
  | formatError : String → PyErr
deriving DecidableEq, Repr

instance {ε α : Type} [DecidableEq ε] [DecidableEq α] : DecidableEq (Except ε α) :=
  fun a b =>
    match a, b with
    | .error e, .error e' =>
      if h : e = e' then .isTrue (by rw [h]) else .isFalse (by simp [h])
    | .ok v, .ok v' =>
      if h : v = v' then .isTrue (by rw [h]) else .isFalse (by simp [h])
    | .error _, .ok _ => .isFalse (by simp)
    | .ok _, .error _ => .isFalse (by simp)

/-- Test that `pre` is a prefix of `s`, character by character (Python `str.startswith`). -/
def isPrefixChars : List Char → List Char → Bool
  | [], _ => true
  | _ :: _, [] => false
  | p :: ps, c :: cs => p = c && isPrefixChars ps cs

def pyStartsWith (s pre : String) : Bool := isPrefixChars pre.data s.data

/-- Split on a single-character separator, as Python `str.split(sep)` and
`re.split` with a one-character literal pattern: `''.split(sep) = ['']`,
and empty pieces are kept. -/
def splitChar (sep : Char) : List Char → List (List Char)
  | [] => [[]]
  | c :: cs =>
    let r := splitChar sep cs
    if c = sep then [] :: r
    else
      match r with
      | [] => [[c]]
      | g :: gs => (c :: g) :: gs

def pySplit (sep : Char) (s : String) : List String :=
  (splitChar sep s.data).map List.asString

/-- Python regex `\s` over the characters that occur here. -/
def isPyWs (c : Char) : Bool :=
  c = ' ' || c = '\t' || c = '\n' || c = '\r' || c = '\x0b' || c = '\x0c'

/-- Strip leading and trailing whitespace, as Python `int`/`float` do. -/
def stripChars (l : List Char) : List Char :=
  ((l.dropWhile isPyWs).reverse.dropWhile isPyWs).reverse

/-- Value of a list of decimal digit characters. -/
def digitsToNat (l : List Char) : ℕ :=
  l.foldl (fun n c => 10 * n + (c.toNat - 48)) 0

def allDigits (l : List Char) : Bool := l.all Char.isDigit

/-- Python `int(s)` on the strings produced by the `[0-9]*` extraction:
optional sign followed by a nonempty digit string; `int('')` fails. -/
def pyIntChars : List Char → Option ℤ
  | '-' :: r => if r ≠ [] && allDigits r then some (-(digitsToNat r : ℤ)) else none
  | '+' :: r => if r ≠ [] && allDigits r then some (digitsToNat r : ℤ) else none
  | r => if r ≠ [] && allDigits r then some (digitsToNat r : ℤ) else none

def pyInt (s : String) : Option ℤ := pyIntChars (stripChars s.data)

/-- Python `float(s)` on plain decimal literals (the only shapes reachable
through the `[0-9.\-]` and `[0-9.,]` character classes of the source's
regexes): optional sign, digits, optional dot, digits, with at least one
digit overall; `float('')`, `float('-')`, `float('1.2.3')` fail. -/
def pyFloatChars (l : List Char) : Option ℚ :=
  let core : List Char → Option ℚ := fun l1 =>
    let ip := l1.takeWhile Char.isDigit
    let r1 := l1.dropWhile Char.isDigit
    match r1 with
    | [] => if ip.isEmpty then none else some (digitsToNat ip : ℚ)
    | '.' :: r2 =>
      let fp := r2.takeWhile Char.isDigit
      let r3 := r2.dropWhile Char.isDigit
      if r3.isEmpty && !(ip.isEmpty && fp.isEmpty) then
        some ((digitsToNat ip : ℚ) + (digitsToNat fp : ℚ) / (10 : ℚ) ^ fp.length)
      else none
    | _ => none
  match l with
  | '-' :: r => (core r).map (fun q => -q)
  | '+' :: r => core r
  | r => core r

def pyFloat (s : String) : Option ℚ := pyFloatChars (stripChars s.data)

/-- Try to match `key` followed by one whitespace, `=`, one whitespace at the
head of `s` (the lookbehind `(?<=KEY\s=\s)` of the source's regexes);
returns the remainder after the matched prefix. -/
def stripKey : List Char → List Char → Option (List Char)
  | [], s => some s
  | _ :: _, [] => none
  | k :: ks, c :: cs => if c = k then stripKey ks cs else none

def tryKeyAt (key : List Char) (s : List Char) : Option (List Char) :=
  match stripKey key s with
  | some (c1 :: c2 :: c3 :: rest) =>
    if isPyWs c1 && c2 = '=' && isPyWs c3 then some rest else none
  | _ => none

/-- Model of `re.search` for the patterns `(?<=KEY\s=\s)VALUE` of the source: scan
left to right for the first position where the lookbehind holds and the
value pattern matches, returning the matched value. -/
def reSearch (key : List Char) (matchVal : List Char → Option (List Char)) :
    List Char → Option (List Char)
  | [] => none
  | c :: cs =>
    match tryKeyAt key (c :: cs) with
    | some rest =>
      match matchVal rest with
      | some v => some v
      | none => reSearch key matchVal cs
    | none => reSearch key matchVal cs

/-- A character-class star pattern `[...]*`: always matches, taking the
longest run of class characters. -/
def classStar (cls : Char → Bool) (s : List Char) : Option (List Char) :=
  some (s.takeWhile cls)

def searchClass (key : String) (cls : Char → Bool) (line : String) : Option String :=
  (reSearch key.data (classStar cls) line.data).map List.asString

def latClass (c : Char) : Bool := c.isDigit || c = '.' || c = '-'
def tzClass (c : Char) : Bool := c.isAlpha || c.isDigit || c = '/' || c = '_'
def freqClass (c : Char) : Bool := c.isDigit || c = '.' || c = ','

/-- Model of `parse_version`: `re.search('(?<=version\s=\s)[0-9]*', line)` then
`int(m.group())`. -/
def parse_version (line : String) : Except PyErr ℤ :=
  match searchClass "version" Char.isDigit line with
  | none => .error (.formatError "AttributeError")
  | some v =>
    match pyInt v with
    | some n => .ok n
    | none => .error (.formatError "ValueError")

/-- The pattern `WD[0-9]*` of `parse_id`. -/
def idMatch (s : List Char) : Option (List Char) :=
  match s with
  | 'W' :: 'D' :: rest => some ('W' :: 'D' :: rest.takeWhile Char.isDigit)
  | _ => none

/-- Model of `parse_id`: `re.search('(?<=ID\s=\s)WD[0-9]*', line)`, value kept verbatim. -/
def parse_id (line : String) : Except PyErr String :=
  match (reSearch "ID".data idMatch line.data).map List.asString with
  | none => .error (.formatError "AttributeError")
  | some v => .ok v

/-- Model of `parse_location`: `re.search('(?<=location\s=\s).*', line)`; `.` matches
anything but a newline, so the value is the rest of the line. -/
def parse_location (line : String) : Except PyErr String :=
  match searchClass "location" (fun c => c != '\n') line with
  | none => .error (.formatError "AttributeError")
  | some v => .ok v

/-- Model of `parse_lat`: `re.search('(?<=latitude\s=\s)[0-9\.-]*', line)` then `float`. -/
def parse_lat (line : String) : Except PyErr ℚ :=
  match searchClass "latitude" latClass line with
  | none => .error (.formatError "AttributeError")
  | some v =>
    match pyFloat v with
    | some q => .ok q
    | none => .error (.formatError "ValueError")

/-- Model of `parse_lon`: as `parse_lat`, for `longitude`. -/
def parse_lon (line : String) : Except PyErr ℚ :=
  match searchClass "longitude" latClass line with
  | none => .error (.formatError "AttributeError")
  | some v =>
    match pyFloat v with
    | some q => .ok q
    | none => .error (.formatError "ValueError")

/-- Model of `parse_magdec`: as `parse_lat`, for `magdec`. -/
def parse_magdec (line : String) : Except PyErr ℚ :=
  match searchClass "magdec" latClass line with
  | none => .error (.formatError "AttributeError")
  | some v =>
    match pyFloat v with
    | some q => .ok q
    | none => .error (.formatError "ValueError")

/-- Model of `parse_tz`: `re.search('(?<=timezone\s=\s)[A-Za-z0-9/_]*', line)`. -/
def parse_tz (line : String) : Except PyErr String :=
  match searchClass "timezone" tzClass line with
  | none => .error (.formatError "AttributeError")
  | some v => .ok v

/-- Model of `parse_freq`: `re.search('(?<=frequencies\s=\s)[0-9\.,]*', line)`, then
`np.asarray(m.group().split(','), dtype=float)`: every comma-separated token
must convert to a float, so an empty extracted value (one empty token)
fails with `ValueError`. -/
def mapFloats : List String → Except PyErr (List ℚ)
  | [] => .ok []
  | t :: ts =>
    match pyFloat t with
    | none => .error (.formatError "ValueError")
    | some q =>
      match mapFloats ts with
      | .error e => .error e
      | .ok qs => .ok (q :: qs)

def parse_freq (line : String) : Except PyErr (List ℚ) :=
  match searchClass "frequencies" freqClass line with
  | none => .error (.formatError "AttributeError")
  | some v => mapFloats (pySplit ',' v)

/-- The header fields accumulated by `parse_header` (attributes of
`WaveDroidReader`; `frequencies` is initialised to `[]` by `reset`). -/
structure WDHeader where
  version : Option ℤ := none
  id : Option String := none
  location : Option String := none
  latitude : Option ℚ := none
  longitude : Option ℚ := none
  magdec : Option ℚ := none
  timezone : Option String := none
  frequencies : List ℚ := []
deriving DecidableEq, Repr

def initWDHeader : WDHeader := {}

/-- Model of `re.match` with pattern `^[0-9]`: the line's first character is a decimal digit. -/
def startsWithDigit (s : String) : Bool :=
  match s.data with
  | [] => false
  | c :: _ => c.isDigit

/-- The keyword dispatch (`if/elif` chain) of `parse_header`, for one line. -/
def processHeaderLine (h : WDHeader) (line : String) : Except PyErr WDHeader :=
  if pyStartsWith line "version" then
    (parse_version line).map fun v => { h with version := some v }
  else if pyStartsWith line "ID" then
    (parse_id line).map fun v => { h with id := some v }
  else if pyStartsWith line "location" then
    (parse_location line).map fun v => { h with location := some v }
  else if pyStartsWith line "latitude" then
    (parse_lat line).map fun v => { h with latitude := some v }
  else if pyStartsWith line "longitude" then
    (parse_lon line).map fun v => { h with longitude := some v }
  else if pyStartsWith line "magdec" then
    (parse_magdec line).map fun v => { h with magdec := some v }
  else if pyStartsWith line "timezone" then
    (parse_tz line).map fun v => { h with timezone := some v }
  else if pyStartsWith line "frequencies" then
    (parse_freq line).map fun v => { h with frequencies := v }
  else .ok h

/-- A line's leading keyword is one of the eight recognized ones. -/
def recognizedKeyword (line : String) : Bool :=
  pyStartsWith line "version" || pyStartsWith line "ID" || pyStartsWith line "location" ||
  pyStartsWith line "latitude" || pyStartsWith line "longitude" || pyStartsWith line "magdec" ||
  pyStartsWith line "timezone" || pyStartsWith line "frequencies"

/-- Model of `parse_header` plus `_currentlines`: loop over lines while the current
line does not start with a digit, dispatching each line; return the header
and the remaining lines (the body).  Running off the end of the line list
(`self.lines[self.n]` with `n` past the end) is an `IndexError`. -/
def parse_header : WDHeader → List String → Except PyErr (WDHeader × List String)
  | _, [] => .error .indexError
  | h, l :: ls =>
    if startsWithDigit l then .ok (h, l :: ls)
    else
      match processHeaderLine h l with
      | .error e => .error e
      | .ok h' => parse_header h' ls

/-- Process a list of header lines in order, threading the header state
(fail-fast); this is the dispatch part of the `parse_header` loop,
separated from the digit-sentinel scan. -/
def processAll : WDHeader → List String → Except PyErr WDHeader
  | h, [] => .ok h
  | h, l :: ls =>
    match processHeaderLine h l with
    | .error e => .error e
    | .ok h' => processAll h' ls

/-- A parsed timestamp, as validated by `datetime.strptime` with the fixed
format `'%Y-%m-%d %H:%M:%S'`. -/
structure WDTime where
  year : ℕ
  month : ℕ
  day : ℕ
  hour : ℕ
  minute : ℕ
  second : ℕ
deriving DecidableEq, Repr

def parseYear (s : String) : Option ℕ :=
  if s.data.length = 4 && allDigits s.data then some (digitsToNat s.data) else none

def parseRange (s : String) (lo hi : ℕ) : Option ℕ :=
  if (s.data.length = 1 || s.data.length = 2) && allDigits s.data then
    let v := digitsToNat s.data
    if lo ≤ v && v ≤ hi then some v else none
  else none

/-- Models `datetime.strptime(s, '%Y-%m-%d %H:%M:%S')` (standard library):
CPython matches `%Y` as four digits, `%m` in 1..12, `%d` in 1..31, `%H` in
0..23, `%M` in 0..59, `%S` in 0..61, each as one or two digits, with the
literal separators; a mismatch raises `ValueError`.  Month-length
validation is omitted, as no claim depends on it. -/
def pyStrptime (s : String) : Option WDTime :=
  match pySplit ' ' s with
  | [ds, ts] =>
    match pySplit '-' ds, pySplit ':' ts with
    | [ys, ms, dds], [hs, mis, ss] => do
      let y ← parseYear ys
      let mo ← parseRange ms 1 12
      let d ← parseRange dds 1 31
      let h ← parseRange hs 0 23
      let mi ← parseRange mis 0 59
      let sec ← parseRange ss 0 61
      some ⟨y, mo, d, h, mi, sec⟩
    | _, _ => none
  | _ => none

/-- One parsed body record (`parse_data` loop body): the seven scalar fields,
and the four spectral-moment vectors plus the power vector when the
frequency axis is truthy. -/
structure WDParsedRecord where
  time : WDTime
  Hm0 : ℚ
  Tp : ℚ
  Dirp : ℚ
  Tavg : ℚ
  Hmax : ℚ
  Tmax : ℚ
  moments : Option (List ℚ × List ℚ × List ℚ × List ℚ × List ℚ) := none
deriving DecidableEq, Repr

/-- Indexing `vals[i]` on a Python list: out of bounds raises `IndexError`. -/
def getVal (vals : List String) (i : ℕ) : Except PyErr String :=
  match vals[i]? with
  | some v => .ok v
  | none => .error .indexError

/-- Model of `float(vals[i])`. -/
def getFloat (vals : List String) (i : ℕ) : Except PyErr ℚ :=
  match getVal vals i with
  | .error e => .error e
  | .ok v =>
    match pyFloat v with
    | some q => .ok q
    | none => .error (.formatError "ValueError")

/-- Model of `np.asarray(vals[i].split(chr(44)), dtype=float)`. -/
def getFloatList (vals : List String) (i : ℕ) : Except PyErr (List ℚ) :=
  match getVal vals i with
  | .error e => .error e
  | .ok v => mapFloats (pySplit ',' v)

/-- Model of `datetime.strptime(vals[0], WD_TIME_FORMAT)`. -/
def getTime (vals : List String) : Except PyErr WDTime :=
  match getVal vals 0 with
  | .error e => .error e
  | .ok v =>
    match pyStrptime v with
    | some t => .ok t
    | none => .error (.formatError "ValueError")

/-- One iteration of the `parse_data` loop: `vals = re.split(';', line)`,
fields 0..6 always, fields 7..11 only when `any(self.frequencies)` (some
frequency is nonzero, Python truthiness).  Fields beyond those indexed are
never touched. -/
def parse_line (freqs : List ℚ) (line : String) : Except PyErr WDParsedRecord :=
  let vals := pySplit ';' line
  match getTime vals with
  | .error e => .error e
  | .ok t =>
  match getFloat vals 1 with
  | .error e => .error e
  | .ok hm0 =>
  match getFloat vals 2 with
  | .error e => .error e
  | .ok tp =>
  match getFloat vals 3 with
  | .error e => .error e
  | .ok dirp =>
  match getFloat vals 4 with
  | .error e => .error e
  | .ok tavg =>
  match getFloat vals 5 with
  | .error e => .error e
  | .ok hmax =>
  match getFloat vals 6 with
  | .error e => .error e
  | .ok tmax =>
  if freqs.any (fun q => q != 0) then
    match getFloatList vals 7 with
    | .error e => .error e
    | .ok puu =>
    match getFloatList vals 8 with
    | .error e => .error e
    | .ok th0 =>
    match getFloatList vals 9 with
    | .error e => .error e
    | .ok m1 =>
    match getFloatList vals 10 with
    | .error e => .error e
    | .ok m2 =>
    match getFloatList vals 11 with
    | .error e => .error e
    | .ok n2 => .ok ⟨t, hm0, tp, dirp, tavg, hmax, tmax, some (puu, th0, m1, m2, n2)⟩
  else
    .ok ⟨t, hm0, tp, dirp, tavg, hmax, tmax, none⟩

/-- Model of `parse_data`: process every body line in order, fail-fast. -/
def parse_data (freqs : List ℚ) : List String → Except PyErr (List WDParsedRecord)
  | [] => .ok []
  | l :: ls =>
    match parse_line freqs l with
    | .error e => .error e
    | .ok r =>
      match parse_data freqs ls with
      | .error e => .error e
      | .ok rs => .ok (r :: rs)

/-! ## Spectrum reconstruction (`compute_spectrum`), over `ℝ` -/

/-- The moment vectors of one record, as consumed by `compute_spectrum`
(`self.Puu[i]`, `self.th0[i]`, `self.m1[i]`, `self.m2[i]`, `self.n2[i]`). -/
structure WDRecord where
  Puu : List ℝ
  th0 : List ℝ
  m1 : List ℝ
  m2 : List ℝ
  n2 : List ℝ

/-- Model of `np.linspace(a, b, num)`, element `j`: endpoints inclusive with step
`(b - a)/(num - 1)`. -/
noncomputable def linspace (a b : ℝ) (num : ℕ) (j : ℕ) : ℝ :=
  a + j * ((b - a) / ((num : ℝ) - 1))

/-- The direction lattice `rad = np.linspace(-pi, pi - 2*pi/ndir, ndir)`.
The Python-level expression `2*np.pi/ndir` raises `ZeroDivisionError` when
`ndir = 0`; `compute_spectrum` models that error with an explicit guard
before any lattice angle is formed, so this (total) function is consulted
only for `ndir ≠ 0`. -/
noncomputable def rad (ndir : ℕ) (j : ℕ) : ℝ :=
  linspace (-Real.pi) (Real.pi - 2 * Real.pi / ndir) ndir j

/-- Model of `self.add_magdec`: `x + self.magdec`. -/
def add_magdec (magdec x : ℝ) : ℝ := x + magdec

/-- One cell of the inner assignment
`spec[i,:,j] = 1/np.pi*(.5 + m*np.cos(r-t) + mm*np.cos(2*(r-t)) + nn*np.sin(2*(r-t)))*p`,
at one frequency bin (`t` already declination-corrected). -/
noncomputable def specCell (p t m mm nn r : ℝ) : ℝ :=
  1 / Real.pi * (0.5 + m * Real.cos (r - t) + mm * Real.cos (2 * (r - t)) +
    nn * Real.sin (2 * (r - t))) * p

/-- Pointwise zip of the five per-frequency vectors, as numpy's elementwise
arithmetic pairs them index by index. -/
def zip5 {α β γ δ ε : Type} :
    List α → List β → List γ → List δ → List ε → List (α × β × γ × δ × ε)
  | a :: as, b :: bs, c :: cs, d :: ds, e :: es =>
    (a, b, c, d, e) :: zip5 as bs cs ds es
  | _, _, _, _, _ => []

def momentTuples (rec : WDRecord) : List (ℝ × ℝ × ℝ × ℝ × ℝ) :=
  zip5 rec.Puu rec.th0 rec.m1 rec.m2 rec.n2

/-- The pre-shift grid of one record: rows indexed by frequency bin, row
entries indexed by direction bin `j` at lattice angle `rad ndir j`; `th0`
is corrected by `add_magdec` before the trigonometric evaluation
(`self.th0_cor = map(self.add_magdec, self.th0)`). -/
noncomputable def record_spec (magdec : ℝ) (ndir : ℕ) (rec : WDRecord) :
    List (List ℝ) :=
  (momentTuples rec).map fun q =>
    List.ofFn fun j : Fin ndir =>
      specCell q.1 (add_magdec magdec q.2.1) q.2.2.1 q.2.2.2.1 q.2.2.2.2 (rad ndir j)

/-- Model of `np.roll` by `s` along a one-dimensional axis:
`(np.roll a s)[j] = a[(j - s) mod n]`, expressed as a left rotation. -/
def npRoll {α : Type} (s : ℕ) (l : List α) : List α :=
  l.rotate (l.length - s % l.length)

/-- The result of `compute_spectrum`: `self.energy` (record × frequency ×
direction) and `self.directions`. -/
structure SpecResult where
  energy : List (List (List ℝ))
  directions : List ℝ

/-- Model of `compute_spectrum(ndir)`: raise `ValueError` unless `ndir` is
even; after that check, building the lattice evaluates the Python-level
division `2*np.pi/ndir` (and later `360./ndir` for the direction axis),
which raises `ZeroDivisionError` when `ndir = 0`; otherwise fill the grid
per record, shift the direction axis by `ndir/2`
(`np.roll(spec, ndir/2, axis=2)`), and report the direction axis
`np.linspace(0., 360. - 360./ndir, ndir)`. -/
noncomputable def compute_spectrum (magdec : ℝ) (recs : List WDRecord)
    (ndir : ℕ) : Except String SpecResult :=
  if ndir % 2 ≠ 0 then .error "Number of directional bins should be even!"
  else if ndir = 0 then .error "ZeroDivisionError: float division by zero"
  else
    .ok { energy := recs.map fun rec => (record_spec magdec ndir rec).map (npRoll (ndir / 2)),
          directions := List.ofFn fun j : Fin ndir => linspace 0 (360 - 360 / ndir) ndir j }

/-! ## Helper lemmas -/

theorem compute_spectrum_eq_ok (magdec : ℝ) (recs : List WDRecord) (ndir : ℕ)
    (heven : ndir % 2 = 0) (hnz : ndir ≠ 0) :
    compute_spectrum magdec recs ndir =
      .ok { energy := recs.map fun rec =>
              (record_spec magdec ndir rec).map (npRoll (ndir / 2)),
            directions := List.ofFn fun j : Fin ndir =>
              linspace 0 (360 - 360 / ndir) ndir j } := by
  unfold compute_spectrum
  rw [if_neg (by simp [heven]), if_neg hnz]

theorem compute_spectrum_eq_zero (magdec : ℝ) (recs : List WDRecord) :
    compute_spectrum magdec recs 0 =
      .error "ZeroDivisionError: float division by zero" := by
  unfold compute_spectrum
  rw [if_neg (by norm_num), if_pos rfl]

theorem compute_spectrum_eq_error (magdec : ℝ) (recs : List WDRecord) (ndir : ℕ)
    (hodd : ndir % 2 ≠ 0) :
    compute_spectrum magdec recs ndir =
      .error "Number of directional bins should be even!" := by
  unfold compute_spectrum
  rw [if_pos hodd]

theorem parse_header_ok_split (lines : List String) :
    ∀ (h0 h : WDHeader) (body : List String),
      parse_header h0 lines = .ok (h, body) →
      ∃ k, body = lines.drop k ∧ lines.take k ++ body = lines ∧
        (∀ s ∈ lines.take k, startsWithDigit s = false) ∧
        ∃ s, body.head? = some s ∧ startsWithDigit s = true := by
  induction lines with
  | nil =>
    intro h0 h body hp
    simp [parse_header] at hp
  | cons l ls ih =>
    intro h0 h body hp
    simp only [parse_header] at hp
    by_cases hd : startsWithDigit l
    · rw [if_pos hd] at hp
      obtain ⟨hh, hbody⟩ := by simpa using hp
      refine ⟨0, by simp [hbody], by simp [hbody], by simp, l, ?_, hd⟩
      simp [← hbody]
    · rw [if_neg hd] at hp
      cases hph : processHeaderLine h0 l with
      | error e => rw [hph] at hp; exact absurd hp (by simp)
      | ok h1 =>
        rw [hph] at hp
        obtain ⟨k, hb, happ, hall, s, hh, hsd⟩ := ih h1 h body hp
        refine ⟨k + 1, by simpa using hb, by simpa using happ, ?_, s, hh, hsd⟩
        intro s' hs'
        rcases (by simpa using hs' : s' = l ∨ s' ∈ ls.take k) with rfl | hmem
        · simpa using hd
        · exact hall s' hmem

theorem parse_header_no_digit_not_ok (lines : List String) :
    ∀ h0, (∀ s ∈ lines, startsWithDigit s = false) →
      ∀ h body, parse_header h0 lines ≠ .ok (h, body) := by
  induction lines with
  | nil =>
    intro h0 _ h body hp
    simp [parse_header] at hp
  | cons l ls ih =>
    intro h0 hnd h body hp
    have hd : startsWithDigit l = false := hnd l (by simp)
    simp only [parse_header] at hp
    rw [if_neg (by simp [hd])] at hp
    cases hph : processHeaderLine h0 l with
    | error e => rw [hph] at hp; exact absurd hp (by simp)
    | ok h1 =>
      rw [hph] at hp
      exact ih h1 (fun s hs => hnd s (List.mem_cons_of_mem l hs)) h body hp

theorem parse_header_no_digit_indexError (lines : List String) :
    ∀ h0 h', (∀ s ∈ lines, startsWithDigit s = false) →
      processAll h0 lines = .ok h' →
      parse_header h0 lines = .error .indexError := by
  induction lines with
  | nil => intro h0 h' _ _; rfl
  | cons l ls ih =>
    intro h0 h' hnd hpa
    have hd : startsWithDigit l = false := hnd l (by simp)
    simp only [processAll] at hpa
    cases hph : processHeaderLine h0 l with
    | error e => rw [hph] at hpa; exact absurd hpa (by simp)
    | ok h1 =>
      rw [hph] at hpa
      simp only [parse_header]
      rw [if_neg (by simp [hd]), hph]
      exact ih h1 h' (fun s hs => hnd s (List.mem_cons_of_mem l hs)) hpa

/-! ## Claims -/

/-- C2: for every input on which header parsing returns, the body is
exactly the suffix starting at the first digit-starting line: the consumed
header lines are exactly the lines before it (none of which starts with a
digit), header and body partition the input with no overlap and no gap,
and the sentinel digit-starting line is not consumed (it is the head of
the body). -/
theorem claim_C2 (lines body : List String) (h : WDHeader)
    (hp : parse_header initWDHeader lines = .ok (h, body)) :
    ∃ k, body = lines.drop k ∧ lines.take k ++ body = lines ∧
      (∀ s ∈ lines.take k, startsWithDigit s = false) ∧
      ∃ s, body.head? = some s ∧ startsWithDigit s = true :=
  parse_header_ok_split lines initWDHeader h body hp

theorem claim_C2_witness :
    ∃ k, ["12;x"] = (["version = 2", "hello", "12;x"] : List String).drop k ∧
      (["version = 2", "hello", "12;x"] : List String).take k ++ ["12;x"] =
        ["version = 2", "hello", "12;x"] ∧
      (∀ s ∈ (["version = 2", "hello", "12;x"] : List String).take k,
        startsWithDigit s = false) ∧
      ∃ s, (["12;x"] : List String).head? = some s ∧ startsWithDigit s = true :=
  claim_C2 ["version = 2", "hello", "12;x"] ["12;x"]
    ⟨some 2, none, none, none, none, none, none, []⟩ (by decide)

/-- C5 counterexample: `ndir = 0` is even, so the evenness precondition
check passes, yet reconstruction does not proceed for any input: the
Python-level division `2*np.pi/ndir` raises a ZeroDivisionError (not the
ValueError-class precondition error) before any lattice angle is built. -/
theorem claim_C5_cex :
    (0 : ℕ) % 2 = 0 ∧
    compute_spectrum 0 [] 0 = .error "ZeroDivisionError: float division by zero" ∧
    "ZeroDivisionError: float division by zero" ≠
      "Number of directional bins should be even!" :=
  ⟨by decide, compute_spectrum_eq_zero 0 [], by decide⟩

/-- C5 (amended): `compute_spectrum` fails with the ValueError-class
precondition error for every input whenever `ndir` is odd, before any
per-record work (the error does not depend on the records); for even
nonzero `ndir` (such as the default 360) the check passes and
reconstruction proceeds to a result; the even value `ndir = 0` passes the
evenness check but fails with a ZeroDivisionError at the lattice
construction instead of proceeding. -/
theorem claim_C5 :
    (∀ (magdec : ℝ) (recs : List WDRecord) (ndir : ℕ), ndir % 2 = 1 →
      compute_spectrum magdec recs ndir =
        .error "Number of directional bins should be even!") ∧
    (∀ (magdec : ℝ) (recs : List WDRecord) (ndir : ℕ), ndir % 2 = 0 → ndir ≠ 0 →
      ∃ res, compute_spectrum magdec recs ndir = .ok res) ∧
    (∀ (magdec : ℝ) (recs : List WDRecord),
      compute_spectrum magdec recs 0 =
        .error "ZeroDivisionError: float division by zero") := by
  refine ⟨?_, ?_, ?_⟩
  · intro magdec recs ndir hodd
    exact compute_spectrum_eq_error magdec recs ndir (by simp [hodd])
  · intro magdec recs ndir heven hnz
    exact ⟨_, compute_spectrum_eq_ok magdec recs ndir heven hnz⟩
  · intro magdec recs
    exact compute_spectrum_eq_zero magdec recs

theorem claim_C5_witness :
    compute_spectrum 0 [] 361 = .error "Number of directional bins should be even!" ∧
    (∃ res, compute_spectrum 0 [] 360 = .ok res) ∧
    compute_spectrum 0 [] 0 = .error "ZeroDivisionError: float division by zero" :=
  ⟨claim_C5.1 0 [] 361 (by decide), claim_C5.2.1 0 [] 360 (by decide) (by decide),
   claim_C5.2.2 0 []⟩

/-- C10 counterexample: the input `["version = abc"]` has no digit-starting
line, yet the header scan does not index past the end: it aborts at the bad
`version` value with a ValueError-class FormatError, not the out-of-bounds
IndexError. -/
theorem claim_C10_cex :
    (∀ s ∈ (["version = abc"] : List String), startsWithDigit s = false) ∧
    parse_header initWDHeader ["version = abc"] =
      .error (.formatError "ValueError") ∧
    PyErr.formatError "ValueError" ≠ PyErr.indexError :=
  ⟨by decide, by decide, by decide⟩

/-- C10 (amended): header parsing never returns successfully on an input in
which no line starts with a decimal digit; on such inputs it indexes past
the end of the line sequence (IndexError) provided every header line
processes without a field error — a line with a bad recognized-keyword
value aborts earlier with a FormatError instead. -/
theorem claim_C10 (lines : List String)
    (hnd : ∀ s ∈ lines, startsWithDigit s = false) :
    (∀ h body, parse_header initWDHeader lines ≠ .ok (h, body)) ∧
    (∀ h', processAll initWDHeader lines = .ok h' →
      parse_header initWDHeader lines = .error .indexError) :=
  ⟨parse_header_no_digit_not_ok lines initWDHeader hnd,
   fun h' hpa => parse_header_no_digit_indexError lines initWDHeader h' hnd hpa⟩

theorem claim_C10_witness :
    parse_header initWDHeader ["hello", "world"] = .error .indexError :=
  (claim_C10 ["hello", "world"] (by decide)).2 initWDHeader (by decide)

/-! ## Error-shape lemmas: every field-parsing failure is a FormatError -/

theorem mapFloats_error_shape : ∀ (ts : List String) (e : PyErr),
    mapFloats ts = .error e → e = .formatError "ValueError" := by
  intro ts
  induction ts with
  | nil => intro e he; simp [mapFloats] at he
  | cons t ts ih =>
    intro e he
    unfold mapFloats at he
    cases hf : pyFloat t with
    | none => rw [hf] at he; simpa using he.symm
    | some q =>
      rw [hf] at he
      cases hm : mapFloats ts with
      | error e' => rw [hm] at he; simp only [Except.error.injEq] at he; exact he ▸ ih e' hm
      | ok qs => rw [hm] at he; simp at he

theorem parse_version_error_shape (line : String) (e : PyErr)
    (he : parse_version line = .error e) : ∃ msg, e = .formatError msg := by
  unfold parse_version at he
  split at he
  · exact ⟨"AttributeError", by simpa using he.symm⟩
  · split at he
    · simp at he
    · exact ⟨"ValueError", by simpa using he.symm⟩

theorem parse_id_error_shape (line : String) (e : PyErr)
    (he : parse_id line = .error e) : ∃ msg, e = .formatError msg := by
  unfold parse_id at he
  split at he
  · exact ⟨"AttributeError", by simpa using he.symm⟩
  · simp at he

theorem parse_location_error_shape (line : String) (e : PyErr)
    (he : parse_location line = .error e) : ∃ msg, e = .formatError msg := by
  unfold parse_location at he
  split at he
  · exact ⟨"AttributeError", by simpa using he.symm⟩
  · simp at he

theorem parse_lat_error_shape (line : String) (e : PyErr)
    (he : parse_lat line = .error e) : ∃ msg, e = .formatError msg := by
  unfold parse_lat at he
  split at he
  · exact ⟨"AttributeError", by simpa using he.symm⟩
  · split at he
    · simp at he
    · exact ⟨"ValueError", by simpa using he.symm⟩

theorem parse_lon_error_shape (line : String) (e : PyErr)
    (he : parse_lon line = .error e) : ∃ msg, e = .formatError msg := by
  unfold parse_lon at he
  split at he
  · exact ⟨"AttributeError", by simpa using he.symm⟩
  · split at he
    · simp at he
    · exact ⟨"ValueError", by simpa using he.symm⟩

theorem parse_magdec_error_shape (line : String) (e : PyErr)
    (he : parse_magdec line = .error e) : ∃ msg, e = .formatError msg := by
  unfold parse_magdec at he
  split at he
  · exact ⟨"AttributeError", by simpa using he.symm⟩
  · split at he
    · simp at he
    · exact ⟨"ValueError", by simpa using he.symm⟩

theorem parse_tz_error_shape (line : String) (e : PyErr)
    (he : parse_tz line = .error e) : ∃ msg, e = .formatError msg := by
  unfold parse_tz at he
  split at he
  · exact ⟨"AttributeError", by simpa using he.symm⟩
  · simp at he

theorem parse_freq_error_shape (line : String) (e : PyErr)
    (he : parse_freq line = .error e) : ∃ msg, e = .formatError msg := by
  unfold parse_freq at he
  split at he
  · exact ⟨"AttributeError", by simpa using he.symm⟩
  · exact ⟨"ValueError", mapFloats_error_shape _ e he⟩

theorem except_map_error {α β : Type} (f : α → β) (x : Except PyErr α) (e : PyErr)
    (h : Except.map f x = .error e) : x = .error e := by
  cases x with
  | error e2 => simpa [Except.map] using h
  | ok v => simp [Except.map] at h

theorem processHeaderLine_error_shape (h : WDHeader) (line : String) (e : PyErr)
    (he : processHeaderLine h line = .error e) : ∃ msg, e = .formatError msg := by
  unfold processHeaderLine at he
  split_ifs at he
  · exact parse_version_error_shape line e (except_map_error _ _ e he)
  · exact parse_id_error_shape line e (except_map_error _ _ e he)
  · exact parse_location_error_shape line e (except_map_error _ _ e he)
  · exact parse_lat_error_shape line e (except_map_error _ _ e he)
  · exact parse_lon_error_shape line e (except_map_error _ _ e he)
  · exact parse_magdec_error_shape line e (except_map_error _ _ e he)
  · exact parse_tz_error_shape line e (except_map_error _ _ e he)
  · exact parse_freq_error_shape line e (except_map_error _ _ e he)

/-- Processing a clean non-digit prefix of header lines advances the scan:
`parse_header` on `pre ++ rest` continues as `parse_header` from the state
after `pre`. -/
theorem parse_header_append (pre : List String) :
    ∀ h0 h1, (∀ s ∈ pre, startsWithDigit s = false) →
      processAll h0 pre = .ok h1 →
      ∀ rest, parse_header h0 (pre ++ rest) = parse_header h1 rest := by
  induction pre with
  | nil =>
    intro h0 h1 _ hpa rest
    simp only [processAll] at hpa
    obtain rfl : h0 = h1 := by simpa using hpa
    rfl
  | cons l ls ih =>
    intro h0 h1 hnd hpa rest
    have hd : startsWithDigit l = false := hnd l (by simp)
    simp only [processAll] at hpa
    cases hph : processHeaderLine h0 l with
    | error e => rw [hph] at hpa; exact absurd hpa (by simp)
    | ok ha =>
      rw [hph] at hpa
      show parse_header h0 (l :: (ls ++ rest)) = parse_header h1 rest
      simp only [parse_header]
      rw [if_neg (by simp [hd]), hph]
      exact ih ha h1 (fun s hs => hnd s (List.mem_cons_of_mem l hs)) hpa rest

/-- C7: if the header lines before `l` process cleanly without reaching a
digit-starting sentinel, and `l` carries a recognized keyword whose value
fails its field-specific extraction or conversion, then header parsing
fails with a FormatError-class error (never a different class), raised
immediately at `l`: the lines after `l` do not affect the outcome. -/
theorem claim_C7 (pre rest : List String) (l : String) (h1 : WDHeader) (e : PyErr)
    (hpre : processAll initWDHeader pre = .ok h1)
    (hpd : ∀ s ∈ pre, startsWithDigit s = false)
    (hld : startsWithDigit l = false)
    (_hrec : recognizedKeyword l = true)
    (herr : processHeaderLine h1 l = .error e) :
    (∃ msg, e = .formatError msg) ∧
    parse_header initWDHeader (pre ++ l :: rest) = .error e := by
  refine ⟨processHeaderLine_error_shape h1 l e herr, ?_⟩
  rw [parse_header_append pre initWDHeader h1 hpd hpre (l :: rest)]
  simp only [parse_header]
  rw [if_neg (by simp [hld]), herr]

theorem claim_C7_witness :
    (∃ msg, PyErr.formatError "ValueError" = PyErr.formatError msg) ∧
    parse_header initWDHeader (["location = pier"] ++ "latitude = abc" :: ["1;x"]) =
      .error (.formatError "ValueError") :=
  claim_C7 ["location = pier"] ["1;x"] "latitude = abc"
    ⟨none, none, some "pier", none, none, none, none, []⟩
    (.formatError "ValueError") (by decide) (by decide) (by decide) (by decide)
    (by decide)

/-! ## Frequencies: round-trip, absence, routing -/

theorem processHeaderLine_frequencies (h h' : WDHeader) (line : String)
    (hnf : pyStartsWith line "frequencies" = false)
    (hp : processHeaderLine h line = .ok h') : h'.frequencies = h.frequencies := by
  unfold processHeaderLine at hp
  split_ifs at hp with h1 h2 h3 h4 h5 h6 h7 h8
  · cases hq : parse_version line with
    | error e => rw [hq] at hp; exact absurd hp (by simp [Except.map])
    | ok v =>
      rw [hq] at hp
      obtain rfl : _ = h' := by simpa [Except.map] using hp
      rfl
  · cases hq : parse_id line with
    | error e => rw [hq] at hp; exact absurd hp (by simp [Except.map])
    | ok v =>
      rw [hq] at hp
      obtain rfl : _ = h' := by simpa [Except.map] using hp
      rfl
  · cases hq : parse_location line with
    | error e => rw [hq] at hp; exact absurd hp (by simp [Except.map])
    | ok v =>
      rw [hq] at hp
      obtain rfl : _ = h' := by simpa [Except.map] using hp
      rfl
  · cases hq : parse_lat line with
    | error e => rw [hq] at hp; exact absurd hp (by simp [Except.map])
    | ok v =>
      rw [hq] at hp
      obtain rfl : _ = h' := by simpa [Except.map] using hp
      rfl
  · cases hq : parse_lon line with
    | error e => rw [hq] at hp; exact absurd hp (by simp [Except.map])
    | ok v =>
      rw [hq] at hp
      obtain rfl : _ = h' := by simpa [Except.map] using hp
      rfl
  · cases hq : parse_magdec line with
    | error e => rw [hq] at hp; exact absurd hp (by simp [Except.map])
    | ok v =>
      rw [hq] at hp
      obtain rfl : _ = h' := by simpa [Except.map] using hp
      rfl
  · cases hq : parse_tz line with
    | error e => rw [hq] at hp; exact absurd hp (by simp [Except.map])
    | ok v =>
      rw [hq] at hp
      obtain rfl : _ = h' := by simpa [Except.map] using hp
      rfl
  · exact absurd h8 (by simp [hnf])
  · obtain rfl : h = h' := by simpa using hp
    rfl

theorem parse_header_frequencies (lines : List String) :
    ∀ h0 h body, (∀ s ∈ lines, pyStartsWith s "frequencies" = false) →
      parse_header h0 lines = .ok (h, body) → h.frequencies = h0.frequencies := by
  induction lines with
  | nil =>
    intro h0 h body _ hp
    simp [parse_header] at hp
  | cons l ls ih =>
    intro h0 h body hnf hp
    simp only [parse_header] at hp
    by_cases hd : startsWithDigit l
    · rw [if_pos hd] at hp
      obtain ⟨rfl, -⟩ : h0 = h ∧ _ := by simpa using hp
      rfl
    · rw [if_neg hd] at hp
      cases hph : processHeaderLine h0 l with
      | error e => rw [hph] at hp; exact absurd hp (by simp)
      | ok h1 =>
        rw [hph] at hp
        rw [ih h1 h body (fun s hs => hnf s (List.mem_cons_of_mem l hs)) hp]
        exact processHeaderLine_frequencies h0 h1 l (hnf l (by simp)) hph

theorem parse_line_moments_none (freqs : List ℚ) (line : String) (r : WDParsedRecord)
    (hfreq : freqs.any (fun q => q != 0) = false)
    (hpl : parse_line freqs line = .ok r) : r.moments = none := by
  unfold parse_line at hpl
  rw [hfreq] at hpl
  simp only [Bool.false_eq_true, if_false] at hpl
  repeat' split at hpl
  all_goals try (cases hpl)
  all_goals rfl

/-- C6 counterexample: a `frequencies` header line that is present but has
an empty value is not accepted: the extracted empty string splits into one
empty token whose float conversion fails (ValueError-class FormatError),
rather than yielding an empty frequency axis. -/
theorem claim_C6_cex :
    parse_freq "frequencies = " = .error (.formatError "ValueError") ∧
    parse_header initWDHeader ["frequencies = ", "1;x"] =
      .error (.formatError "ValueError") :=
  ⟨by decide, by decide⟩

/-- C6 (amended): parsing the header line `frequencies = 0.1,0.2,0.3`
yields the float sequence `[0.1, 0.2, 0.3]`; an absent `frequencies` field
is valid, yields an empty frequency axis, and routes every record through
the 7-field non-spectral branch (no moment vectors); but a `frequencies`
line present with an empty value is not valid: its empty extracted string
yields one empty token whose float conversion fails with a
ValueError-class FormatError. -/
theorem claim_C6 :
    parse_freq "frequencies = 0.1,0.2,0.3" = .ok [1/10, 1/5, 3/10] ∧
    (∀ (lines : List String) (h2 : WDHeader) (body : List String),
      (∀ s ∈ lines, pyStartsWith s "frequencies" = false) →
      parse_header initWDHeader lines = .ok (h2, body) → h2.frequencies = []) ∧
    (∀ (freqs : List ℚ) (line : String) (r : WDParsedRecord),
      freqs.any (fun q => q != 0) = false →
      parse_line freqs line = .ok r → r.moments = none) ∧
    parse_freq "frequencies = " = .error (.formatError "ValueError") := by
  refine ⟨?_, ?_, ?_, by decide⟩
  · have h : parse_freq "frequencies = 0.1,0.2,0.3" =
        .ok [((0:ℕ):ℚ) + ((1:ℕ):ℚ) / (10:ℚ) ^ (1:ℕ),
             ((0:ℕ):ℚ) + ((2:ℕ):ℚ) / (10:ℚ) ^ (1:ℕ),
             ((0:ℕ):ℚ) + ((3:ℕ):ℚ) / (10:ℚ) ^ (1:ℕ)] := rfl
    rw [h]
    norm_num
  · intro lines h2 body hnf hp
    exact parse_header_frequencies lines initWDHeader h2 body hnf hp
  · intro freqs line r hfreq hpl
    exact parse_line_moments_none freqs line r hfreq hpl

theorem claim_C6_witness :
    initWDHeader.frequencies = [] ∧
    (WDParsedRecord.mk ⟨2017, 1, 1, 0, 0, 0⟩ 1 2 3 4 5 6 none).moments = none :=
  ⟨claim_C6.2.1 ["hello", "1;x"] initWDHeader ["1;x"] (by decide) (by decide),
   claim_C6.2.2.1 [] "2017-01-01 00:00:00;1;2;3;4;5;6"
     (WDParsedRecord.mk ⟨2017, 1, 1, 0, 0, 0⟩ 1 2 3 4 5 6 none) (by decide) (by decide)⟩

/-! ## Record field counts -/

/-- C3 counterexample: with an empty frequency axis a body line with 12
`;`-fields is not rejected: it is silently accepted with fields 7..11
ignored.  With a nonempty (truthy) frequency axis a 7-field line does fail,
but with the out-of-bounds IndexError class, not a FormatError. -/
theorem claim_C3_cex :
    parse_data [] ["2017-01-01 00:00:00;1;2;3;4;5;6;7;8;9;10;11"] =
      .ok [⟨⟨2017, 1, 1, 0, 0, 0⟩, 1, 2, 3, 4, 5, 6, none⟩] ∧
    parse_data [(1 : ℚ)] ["2017-01-01 00:00:00;1;2;3;4;5;6"] =
      .error .indexError :=
  ⟨by decide, by decide⟩

/-- C3 (amended): record parsing does not enforce a field count.  When the
frequency axis is empty (falsy), any line whose first seven `;`-fields
parse is accepted, with any further fields silently ignored; when the
frequency axis is truthy, a line with only 7 fields fails at the access to
field 7 with an IndexError (out-of-bounds), not a FormatError. -/
theorem claim_C3 :
    (∀ (freqs : List ℚ) (line : String) (t : WDTime) (x1 x2 x3 x4 x5 x6 : ℚ),
      freqs.any (fun q => q != 0) = false →
      getTime (pySplit ';' line) = .ok t →
      getFloat (pySplit ';' line) 1 = .ok x1 →
      getFloat (pySplit ';' line) 2 = .ok x2 →
      getFloat (pySplit ';' line) 3 = .ok x3 →
      getFloat (pySplit ';' line) 4 = .ok x4 →
      getFloat (pySplit ';' line) 5 = .ok x5 →
      getFloat (pySplit ';' line) 6 = .ok x6 →
      parse_data freqs [line] = .ok [⟨t, x1, x2, x3, x4, x5, x6, none⟩]) ∧
    (∀ (freqs : List ℚ) (line : String) (t : WDTime) (x1 x2 x3 x4 x5 x6 : ℚ),
      freqs.any (fun q => q != 0) = true →
      (pySplit ';' line).length = 7 →
      getTime (pySplit ';' line) = .ok t →
      getFloat (pySplit ';' line) 1 = .ok x1 →
      getFloat (pySplit ';' line) 2 = .ok x2 →
      getFloat (pySplit ';' line) 3 = .ok x3 →
      getFloat (pySplit ';' line) 4 = .ok x4 →
      getFloat (pySplit ';' line) 5 = .ok x5 →
      getFloat (pySplit ';' line) 6 = .ok x6 →
      parse_data freqs [line] = .error .indexError) := by
  constructor
  · intro freqs line t x1 x2 x3 x4 x5 x6 hfreq ht h1 h2 h3 h4 h5 h6
    have hl : parse_line freqs line = .ok ⟨t, x1, x2, x3, x4, x5, x6, none⟩ := by
      simp only [parse_line]
      rw [ht, h1, h2, h3, h4, h5, h6, hfreq]
      simp
    simp only [parse_data, hl]
  · intro freqs line t x1 x2 x3 x4 x5 x6 hfreq hlen ht h1 h2 h3 h4 h5 h6
    have h7 : getFloatList (pySplit ';' line) 7 = .error .indexError := by
      unfold getFloatList getVal
      rw [List.getElem?_eq_none (by rw [hlen])]
    have hl : parse_line freqs line = .error .indexError := by
      simp only [parse_line]
      rw [ht, h1, h2, h3, h4, h5, h6, hfreq]
      simp only [if_true]
      rw [h7]
    simp only [parse_data, hl]

theorem claim_C3_witness :
    parse_data [] ["2017-02-03 04:05:06;1;2;3;4;5;6;9;9;9;9;9"] =
      .ok [⟨⟨2017, 2, 3, 4, 5, 6⟩, 1, 2, 3, 4, 5, 6, none⟩] ∧
    parse_data [(2 : ℚ)] ["2017-02-03 04:05:06;1;2;3;4;5;6"] =
      .error .indexError :=
  ⟨claim_C3.1 [] "2017-02-03 04:05:06;1;2;3;4;5;6;9;9;9;9;9"
      ⟨2017, 2, 3, 4, 5, 6⟩ 1 2 3 4 5 6 (by decide) (by decide) (by decide)
      (by decide) (by decide) (by decide) (by decide) (by decide),
   claim_C3.2 [(2 : ℚ)] "2017-02-03 04:05:06;1;2;3;4;5;6"
      ⟨2017, 2, 3, 4, 5, 6⟩ 1 2 3 4 5 6 (by decide) (by decide) (by decide)
      (by decide) (by decide) (by decide) (by decide) (by decide) (by decide)⟩

/-! ## Spectrum helper lemmas -/

theorem linspace_dir (n : ℕ) (h2 : 2 ≤ n) (k : ℕ) :
    linspace 0 (360 - 360 / n) n k = 360 * k / n := by
  have hc : (2 : ℝ) ≤ (n : ℝ) := by exact_mod_cast h2
  have hn0 : (n : ℝ) ≠ 0 := by linarith
  have hn1 : (n : ℝ) - 1 ≠ 0 := by intro h; linarith
  unfold linspace
  field_simp
  ring

theorem rad_formula (n : ℕ) (h2 : 2 ≤ n) (j : ℕ) :
    rad n j = -Real.pi + j * (2 * Real.pi / n) := by
  have hc : (2 : ℝ) ≤ (n : ℝ) := by exact_mod_cast h2
  have hn0 : (n : ℝ) ≠ 0 := by linarith
  have hn1 : (n : ℝ) - 1 ≠ 0 := by intro h; linarith
  unfold rad linspace
  field_simp
  ring

theorem directions_four :
    (List.ofFn fun j : Fin 4 => linspace 0 (360 - 360 / ((4 : ℕ) : ℝ)) 4 j) =
      [0, 90, 180, 270] := by
  have h : ∀ k : ℕ, linspace 0 (360 - 360 / ((4 : ℕ) : ℝ)) 4 k = 90 * k := by
    intro k
    rw [linspace_dir 4 (by norm_num) k]
    push_cast
    ring
  simp only [List.ofFn_succ, List.ofFn_zero, h]
  norm_num

/-! ## Claims C1 and C9 -/

/-- C9: for every positive even `ndir`, the reported direction axis has
exactly `ndir` entries, entry `j` equals `360·j/ndir` degrees (hence the
values run from `0` to `360 − 360/ndir`, evenly spaced), and the axis is
strictly ascending; in particular for `ndir = 4` the result carries the
direction axis `[0, 90, 180, 270]`. -/
theorem claim_C9 :
    (∀ ndir : ℕ, 2 ≤ ndir → ndir % 2 = 0 →
      ∀ (magdec : ℝ) (recs : List WDRecord) (res : SpecResult),
        compute_spectrum magdec recs ndir = .ok res →
        res.directions.length = ndir ∧
        (∀ j : ℕ, j < ndir →
          res.directions[j]? = some ((360 : ℝ) * (j : ℝ) / (ndir : ℝ))) ∧
        res.directions.Pairwise (· < ·)) ∧
    compute_spectrum 0 [] 4 = .ok ⟨[], [0, 90, 180, 270]⟩ := by
  constructor
  · intro ndir h2 heven magdec recs res hres
    rw [compute_spectrum_eq_ok magdec recs ndir heven (by omega)] at hres
    obtain rfl : res = _ := by simpa using hres.symm
    refine ⟨by simp, ?_, ?_⟩
    · intro j hj
      have hjl : j < (List.ofFn fun j : Fin ndir =>
          linspace 0 (360 - 360 / ndir) ndir j).length := by simpa using hj
      rw [List.getElem?_eq_getElem hjl]
      congr 1
      rw [List.getElem_ofFn]
      simpa using linspace_dir ndir h2 j
    · rw [List.pairwise_iff_getElem]
      intro a b ha hb hab
      rw [List.getElem_ofFn, List.getElem_ofFn]
      have ha' : linspace 0 (360 - 360 / ndir) ndir a = 360 * a / ndir := by
        simpa using linspace_dir ndir h2 a
      have hb' : linspace 0 (360 - 360 / ndir) ndir b = 360 * b / ndir := by
        simpa using linspace_dir ndir h2 b
      simp only [Fin.val_mk]
      rw [ha', hb']
      have hn : (0 : ℝ) < (ndir : ℝ) := by
        have : (2 : ℝ) ≤ (ndir : ℝ) := by exact_mod_cast h2
        linarith
      have hab' : (a : ℝ) < (b : ℝ) := by exact_mod_cast hab
      apply div_lt_div_of_pos_right ?_ hn
      nlinarith
  · rw [compute_spectrum_eq_ok 0 [] 4 (by norm_num) (by norm_num)]
    rw [show ((List.map (fun rec => List.map (npRoll (4 / 2))
        (record_spec 0 4 rec)) []) = ([] : List (List (List ℝ)))) from rfl]
    rw [directions_four]

theorem claim_C9_witness :
    ([(0 : ℝ), 90, 180, 270]).length = 4 ∧
    ([(0 : ℝ), 90, 180, 270])[1]? = some ((360 : ℝ) * ((1 : ℕ) : ℝ) / ((4 : ℕ) : ℝ)) ∧
    ([(0 : ℝ), 90, 180, 270]).Pairwise (· < ·) := by
  have h := claim_C9.1 4 (by norm_num) (by norm_num) 0 []
    ⟨[], [0, 90, 180, 270]⟩ claim_C9.2
  exact ⟨h.1, h.2.1 1 (by norm_num), h.2.2⟩

/-- C1: the direction lattice is `ndir` angles evenly spaced over
`[-π, π)`; for each frequency-bin moment tuple `(P, θ0, m1, m2, n2)` and
lattice angle `r` the pre-shift energy is
`(1/π)·(0.5 + m1·cos(r−(θ0+magdec)) + m2·cos(2(r−(θ0+magdec))) +
n2·sin(2(r−(θ0+magdec))))·P`, and the reported grid is its circular shift by
`ndir/2` positions, whose values are a permutation of the pre-shift row; in
particular for one record, one frequency bin, `P = 2`, all moments zero,
`magdec = 0`, `ndir = 4`, all four output bins equal `1/π`. -/
theorem claim_C1 :
    (∀ ndir : ℕ, 2 ≤ ndir → ∀ j : ℕ,
      rad ndir j = -Real.pi + j * (2 * Real.pi / ndir)) ∧
    (∀ (magdec : ℝ) (recs : List WDRecord) (ndir : ℕ), ndir % 2 = 0 →
      ∀ res, compute_spectrum magdec recs ndir = .ok res →
        res.energy = recs.map fun rec =>
          (momentTuples rec).map fun q =>
            npRoll (ndir / 2) (List.ofFn fun j : Fin ndir =>
              1 / Real.pi * (0.5 + q.2.2.1 * Real.cos (rad ndir j - (q.2.1 + magdec)) +
                q.2.2.2.1 * Real.cos (2 * (rad ndir j - (q.2.1 + magdec))) +
                q.2.2.2.2 * Real.sin (2 * (rad ndir j - (q.2.1 + magdec)))) * q.1)) ∧
    (∀ (magdec : ℝ) (ndir : ℕ) (rec : WDRecord) (row : List ℝ),
      row ∈ record_spec magdec ndir rec → (npRoll (ndir / 2) row).Perm row) ∧
    compute_spectrum 0 [⟨[2], [0], [0], [0], [0]⟩] 4 =
      .ok ⟨[[[1 / Real.pi, 1 / Real.pi, 1 / Real.pi, 1 / Real.pi]]],
           [0, 90, 180, 270]⟩ := by
  refine ⟨rad_formula, ?_, ?_, ?_⟩
  · intro magdec recs ndir heven res hres
    have hnz : ndir ≠ 0 := by
      intro h0
      subst h0
      rw [compute_spectrum_eq_zero magdec recs] at hres
      exact absurd hres (by simp)
    rw [compute_spectrum_eq_ok magdec recs ndir heven hnz] at hres
    obtain rfl : res = _ := by simpa using hres.symm
    show (recs.map fun rec => (record_spec magdec ndir rec).map (npRoll (ndir / 2))) = _
    unfold record_spec
    simp only [List.map_map]
    rfl
  · intro magdec ndir rec row _hrow
    exact List.rotate_perm row _
  · rw [compute_spectrum_eq_ok 0 [⟨[2], [0], [0], [0], [0]⟩] 4 (by norm_num) (by norm_num)]
    have hcell : ∀ r : ℝ, specCell 2 (add_magdec 0 0) 0 0 0 r = 1 / Real.pi := by
      intro r
      unfold specCell add_magdec
      norm_num
      ring
    have hrow : record_spec 0 4 ⟨[2], [0], [0], [0], [0]⟩ =
        [[1 / Real.pi, 1 / Real.pi, 1 / Real.pi, 1 / Real.pi]] := by
      show [List.ofFn fun j : Fin 4 => specCell 2 (add_magdec 0 0) 0 0 0 (rad 4 j)] = _
      simp only [hcell]
      norm_num [List.ofFn_succ]
    rw [show (List.map (fun rec => List.map (npRoll (4 / 2)) (record_spec 0 4 rec))
        [⟨[2], [0], [0], [0], [0]⟩] : List (List (List ℝ))) =
        [List.map (npRoll 2) (record_spec 0 4 ⟨[2], [0], [0], [0], [0]⟩)] from rfl]
    rw [hrow, directions_four]
    simp only [List.map_cons, List.map_nil]
    rw [show npRoll 2 [1 / Real.pi, 1 / Real.pi, 1 / Real.pi, 1 / Real.pi] =
        [1 / Real.pi, 1 / Real.pi, 1 / Real.pi, 1 / Real.pi] from by
      simp [npRoll, List.rotate]]

theorem claim_C1_witness :
    rad 4 1 = -Real.pi + ((1 : ℕ) : ℝ) * (2 * Real.pi / ((4 : ℕ) : ℝ)) ∧
    (npRoll (4 / 2) (List.ofFn fun j : Fin 4 =>
        specCell 2 (add_magdec 0 0) 0 0 0 (rad 4 j))).Perm
      (List.ofFn fun j : Fin 4 => specCell 2 (add_magdec 0 0) 0 0 0 (rad 4 j)) :=
  ⟨claim_C1.1 4 (by norm_num) 1,
   claim_C1.2.2.1 0 4 ⟨[2], [0], [0], [0], [0]⟩ _ (List.mem_singleton.mpr rfl)⟩

/-! ## C8: sign of the reconstructed energy -/

theorem specCell_nonneg (p t m mm nn r : ℝ) (hp : 0 ≤ p)
    (hb : |m| + |mm| + |nn| ≤ 1 / 2) : 0 ≤ specCell p t m mm nn r := by
  unfold specCell
  have hc1 : |Real.cos (r - t)| ≤ 1 := Real.abs_cos_le_one _
  have hc2 : |Real.cos (2 * (r - t))| ≤ 1 := Real.abs_cos_le_one _
  have hs : |Real.sin (2 * (r - t))| ≤ 1 := Real.abs_sin_le_one _
  have h1 : -|m| ≤ m * Real.cos (r - t) := by
    have habs : |m * Real.cos (r - t)| ≤ |m| := by
      rw [abs_mul]
      exact mul_le_of_le_one_right (abs_nonneg m) hc1
    linarith [neg_abs_le (m * Real.cos (r - t))]
  have h2 : -|mm| ≤ mm * Real.cos (2 * (r - t)) := by
    have habs : |mm * Real.cos (2 * (r - t))| ≤ |mm| := by
      rw [abs_mul]
      exact mul_le_of_le_one_right (abs_nonneg mm) hc2
    linarith [neg_abs_le (mm * Real.cos (2 * (r - t)))]
  have h3 : -|nn| ≤ nn * Real.sin (2 * (r - t)) := by
    have habs : |nn * Real.sin (2 * (r - t))| ≤ |nn| := by
      rw [abs_mul]
      exact mul_le_of_le_one_right (abs_nonneg nn) hs
    linarith [neg_abs_le (nn * Real.sin (2 * (r - t)))]
  have hin : 0 ≤ 0.5 + m * Real.cos (r - t) + mm * Real.cos (2 * (r - t)) +
      nn * Real.sin (2 * (r - t)) := by
    have h05 : (0.5 : ℝ) = 1 / 2 := by norm_num
    linarith
  have hpi : 0 ≤ 1 / Real.pi := by positivity
  exact mul_nonneg (mul_nonneg hpi hin) hp

theorem specCell_eval_m1 (r : ℝ) :
    specCell 1 (add_magdec 0 0) (-1) 0 0 r = 1 / Real.pi * (1 / 2 - Real.cos r) := by
  unfold specCell add_magdec
  rw [show r - ((0 : ℝ) + 0) = r from by ring]
  ring

/-- C8 counterexample: with `P = 1`, `m1 = -1` (and the other moments
zero), the reconstructed grid for `ndir = 4` contains the value
`-(1/(2π)) < 0`: the grid is not non-negative for every choice of moment
vectors. -/
theorem claim_C8_cex :
    compute_spectrum 0 [⟨[1], [0], [-1], [0], [0]⟩] 4 =
      .ok ⟨[[[-(1 / (2 * Real.pi)), 1 / (2 * Real.pi),
              3 / (2 * Real.pi), 1 / (2 * Real.pi)]]],
           [0, 90, 180, 270]⟩ ∧
    -(1 / (2 * Real.pi)) < 0 := by
  have hπ := Real.pi_ne_zero
  constructor
  · rw [compute_spectrum_eq_ok 0 [⟨[1], [0], [-1], [0], [0]⟩] 4 (by norm_num) (by norm_num)]
    have hr0 : rad 4 0 = -Real.pi := by
      rw [rad_formula 4 (by norm_num) 0]; push_cast; ring
    have hr1 : rad 4 1 = -(Real.pi / 2) := by
      rw [rad_formula 4 (by norm_num) 1]; push_cast; ring
    have hr2 : rad 4 2 = 0 := by
      rw [rad_formula 4 (by norm_num) 2]; push_cast; ring
    have hr3 : rad 4 3 = Real.pi / 2 := by
      rw [rad_formula 4 (by norm_num) 3]; push_cast; ring
    have e0 : specCell 1 (add_magdec 0 0) (-1) 0 0 (rad 4 0) = 3 / (2 * Real.pi) := by
      rw [specCell_eval_m1, hr0, Real.cos_neg, Real.cos_pi]
      field_simp
      ring
    have e1 : specCell 1 (add_magdec 0 0) (-1) 0 0 (rad 4 1) = 1 / (2 * Real.pi) := by
      rw [specCell_eval_m1, hr1, Real.cos_neg, Real.cos_pi_div_two]
      field_simp
      ring
    have e2 : specCell 1 (add_magdec 0 0) (-1) 0 0 (rad 4 2) = -(1 / (2 * Real.pi)) := by
      rw [specCell_eval_m1, hr2, Real.cos_zero]
      field_simp
      ring
    have e3 : specCell 1 (add_magdec 0 0) (-1) 0 0 (rad 4 3) = 1 / (2 * Real.pi) := by
      rw [specCell_eval_m1, hr3, Real.cos_pi_div_two]
      field_simp
      ring
    have hrow : record_spec 0 4 ⟨[1], [0], [-1], [0], [0]⟩ =
        [[3 / (2 * Real.pi), 1 / (2 * Real.pi),
          -(1 / (2 * Real.pi)), 1 / (2 * Real.pi)]] := by
      rw [show record_spec 0 4 ⟨[1], [0], [-1], [0], [0]⟩ =
          [[specCell 1 (add_magdec 0 0) (-1) 0 0 (rad 4 0),
            specCell 1 (add_magdec 0 0) (-1) 0 0 (rad 4 1),
            specCell 1 (add_magdec 0 0) (-1) 0 0 (rad 4 2),
            specCell 1 (add_magdec 0 0) (-1) 0 0 (rad 4 3)]] from rfl]
      rw [e0, e1, e2, e3]
    simp only [List.map_cons, List.map_nil]
    rw [hrow, directions_four]
    simp only [List.map_cons, List.map_nil]
    rw [show npRoll (4 / 2) [3 / (2 * Real.pi), 1 / (2 * Real.pi),
        -(1 / (2 * Real.pi)), 1 / (2 * Real.pi)] =
        [-(1 / (2 * Real.pi)), 1 / (2 * Real.pi),
         3 / (2 * Real.pi), 1 / (2 * Real.pi)] from rfl]
  · have h0 : (0 : ℝ) < 1 / (2 * Real.pi) := by positivity
    linarith

/-- C8 (amended): the reconstructed energy grid is non-negative whenever
every frequency bin's power `P_k` is non-negative and its moments satisfy
`|m1_k| + |m2_k| + |n2_k| ≤ 1/2`; without such a bound the truncated
Fourier series is not clipped and the grid can contain negative values. -/
theorem claim_C8 (magdec : ℝ) (recs : List WDRecord) (ndir : ℕ) (res : SpecResult)
    (hres : compute_spectrum magdec recs ndir = .ok res)
    (hb : ∀ rec ∈ recs, ∀ q ∈ momentTuples rec,
      0 ≤ q.1 ∧ |q.2.2.1| + |q.2.2.2.1| + |q.2.2.2.2| ≤ 1 / 2) :
    ∀ plane ∈ res.energy, ∀ row ∈ plane, ∀ x ∈ row, 0 ≤ x := by
  have heven : ndir % 2 = 0 := by
    by_contra hodd
    rw [compute_spectrum_eq_error magdec recs ndir hodd] at hres
    exact absurd hres (by simp)
  have hnz : ndir ≠ 0 := by
    intro h0
    subst h0
    rw [compute_spectrum_eq_zero magdec recs] at hres
    exact absurd hres (by simp)
  rw [compute_spectrum_eq_ok magdec recs ndir heven hnz] at hres
  obtain rfl : res = _ := by simpa using hres.symm
  intro plane hplane row hrow x hx
  rcases List.mem_map.1 hplane with ⟨rec, hrec, rfl⟩
  rcases List.mem_map.1 hrow with ⟨row0, hrow0, rfl⟩
  have hx0 : x ∈ row0 := by
    simpa [npRoll, List.mem_rotate] using hx
  unfold record_spec at hrow0
  rcases List.mem_map.1 hrow0 with ⟨q, hq, rfl⟩
  obtain ⟨j, rfl⟩ := (List.mem_ofFn _ _).1 hx0
  obtain ⟨hp, hbq⟩ := hb rec hrec q hq
  exact specCell_nonneg _ _ _ _ _ _ hp hbq

theorem claim_C8_witness :
    0 ≤ specCell 2 (add_magdec 0 0) 0 0 0 (rad 4 0) :=
  claim_C8 0 [WDRecord.mk [2] [0] [0] [0] [0]] 4
    ⟨List.map (fun rec => List.map (npRoll (4 / 2)) (record_spec 0 4 rec))
        [WDRecord.mk [2] [0] [0] [0] [0]],
     List.ofFn fun j : Fin 4 => linspace 0 (360 - 360 / ((4 : ℕ) : ℝ)) 4 j⟩
    (compute_spectrum_eq_ok 0 [WDRecord.mk [2] [0] [0] [0] [0]] 4 (by norm_num)
      (by norm_num))
    (by
      intro rec hrec q hq
      rcases List.mem_singleton.1 hrec with rfl
      have hq2 : q = ((2 : ℝ), (0 : ℝ), (0 : ℝ), (0 : ℝ), (0 : ℝ)) := by
        simpa [momentTuples, zip5] using hq
      subst hq2
      norm_num)
    (List.map (npRoll (4 / 2)) (record_spec 0 4 (WDRecord.mk [2] [0] [0] [0] [0])))
    (List.mem_singleton.mpr rfl)
    (npRoll (4 / 2) (List.ofFn fun j : Fin 4 =>
      specCell 2 (add_magdec 0 0) 0 0 0 (rad 4 j)))
    (List.mem_singleton.mpr rfl)
    (specCell 2 (add_magdec 0 0) 0 0 0 (rad 4 0))
    (List.mem_rotate.mpr ((List.mem_ofFn _ _).mpr ⟨0, rfl⟩))

/-! ## C4: magnetic declination as a lattice rotation -/

theorem specCell_shift (p t x m mm nn r : ℝ) :
    specCell p (t + x) m mm nn r = specCell p t m mm nn (r - x) := by
  unfold specCell
  rw [show r - (t + x) = r - x - t from by ring]

theorem specCell_period (p t m mm nn r : ℝ) (c : ℤ) :
    specCell p t m mm nn (r + c * (2 * Real.pi)) = specCell p t m mm nn r := by
  unfold specCell
  rw [show r + (c : ℝ) * (2 * Real.pi) - t = r - t + (c : ℝ) * (2 * Real.pi) from by ring]
  rw [show (2 : ℝ) * (r - t + (c : ℝ) * (2 * Real.pi)) =
      2 * (r - t) + ((2 * c : ℤ) : ℝ) * (2 * Real.pi) from by push_cast; ring]
  rw [Real.cos_add_int_mul_two_pi, Real.cos_add_int_mul_two_pi,
    Real.sin_add_int_mul_two_pi]

theorem shift_index_exists (n i j : ℕ) (hn : 0 < n) :
    ∃ c : ℤ, (((i + (n - j % n)) % n : ℕ) : ℤ) = (i : ℤ) - (j : ℤ) + c * (n : ℤ) := by
  have hjn : j % n ≤ n := (Nat.mod_lt j hn).le
  refine ⟨1 + ((j / n : ℕ) : ℤ) - (((i + (n - j % n)) / n : ℕ) : ℤ), ?_⟩
  have h1 : ((i + (n - j % n)) % n : ℕ) + n * ((i + (n - j % n)) / n) = i + (n - j % n) :=
    Nat.mod_add_div _ n
  have h2 : (j % n) + n * (j / n) = j := Nat.mod_add_div j n
  have h1' : (((i + (n - j % n)) % n : ℕ) : ℤ) +
      (n : ℤ) * (((i + (n - j % n)) / n : ℕ) : ℤ) =
      (i : ℤ) + ((n : ℤ) - ((j % n : ℕ) : ℤ)) := by
    have h := congrArg (Nat.cast : ℕ → ℤ) h1
    rw [Nat.cast_add, Nat.cast_mul, Nat.cast_add, Nat.cast_sub hjn] at h
    exact h
  have h2' : ((j % n : ℕ) : ℤ) + (n : ℤ) * ((j / n : ℕ) : ℤ) = (j : ℤ) := by
    have h := congrArg (Nat.cast : ℕ → ℤ) h2
    rw [Nat.cast_add, Nat.cast_mul] at h
    exact h
  linarith

theorem specCell_rad_shift (n : ℕ) (h2 : 2 ≤ n) (i j : ℕ) (p t m mm nn : ℝ) :
    specCell p (t + j * (2 * Real.pi / n)) m mm nn (rad n i) =
      specCell p t m mm nn (rad n ((i + (n - j % n)) % n)) := by
  have hn : 0 < n := lt_of_lt_of_le two_pos h2
  have hn0 : (n : ℝ) ≠ 0 := by
    have : (0 : ℝ) < n := by exact_mod_cast hn
    linarith
  obtain ⟨c, hc⟩ := shift_index_exists n i j hn
  rw [specCell_shift]
  have hb : rad n ((i + (n - j % n)) % n) =
      rad n i - j * (2 * Real.pi / n) + c * (2 * Real.pi) := by
    rw [rad_formula n h2, rad_formula n h2]
    have hcr : (((i + (n - j % n)) % n : ℕ) : ℝ) = (i : ℝ) - j + c * n := by
      have h := congrArg (Int.cast : ℤ → ℝ) hc
      push_cast at h
      exact h
    rw [hcr]
    field_simp
    ring
  rw [hb, specCell_period]

theorem record_row_shift (n : ℕ) (h2 : 2 ≤ n) (j : ℕ) (p t m mm nn : ℝ) :
    (List.ofFn fun i : Fin n =>
        specCell p (t + j * (2 * Real.pi / n)) m mm nn (rad n i)) =
      npRoll j (List.ofFn fun i : Fin n => specCell p t m mm nn (rad n i)) := by
  apply List.ext_getElem
  · simp [npRoll, List.length_rotate]
  · intro i hi1 hi2
    rw [List.getElem_ofFn]
    unfold npRoll
    rw [List.getElem_rotate, List.getElem_ofFn]
    simp only [List.length_ofFn, Fin.val_mk]
    exact specCell_rad_shift n h2 i j p t m mm nn

theorem record_spec_shift (n : ℕ) (h2 : 2 ≤ n) (j : ℕ) (rec : WDRecord) :
    record_spec ((j : ℝ) * (2 * Real.pi / n)) n rec =
      (record_spec 0 n rec).map (npRoll j) := by
  unfold record_spec
  rw [List.map_map]
  apply List.map_congr_left
  intro q _
  have h := record_row_shift n h2 j q.1 q.2.1 q.2.2.1 q.2.2.2.1 q.2.2.2.2
  simpa [add_magdec, Function.comp] using h

theorem npRoll_comm {α : Type} (a b : ℕ) (l : List α) :
    npRoll a (npRoll b l) = npRoll b (npRoll a l) := by
  unfold npRoll
  rw [List.length_rotate, List.rotate_rotate, List.length_rotate, List.rotate_rotate,
    Nat.add_comm]

/-- C4: magnetic declination is additive on the angle before the
trigonometric evaluation: a declination of `j` whole direction-lattice
steps (`j·2π/ndir`) produces, for every record list, exactly the grid of
declination `0` circularly shifted along the direction axis by `j`
positions. -/
theorem claim_C4 (ndir : ℕ) (h2 : 2 ≤ ndir) (heven : ndir % 2 = 0) (j : ℕ)
    (recs : List WDRecord) (res res' : SpecResult)
    (hres : compute_spectrum ((j : ℝ) * (2 * Real.pi / ndir)) recs ndir = .ok res)
    (hres' : compute_spectrum 0 recs ndir = .ok res') :
    res.energy = res'.energy.map fun plane => plane.map (npRoll j) := by
  rw [compute_spectrum_eq_ok _ recs ndir heven (by omega)] at hres hres'
  obtain rfl : res = _ := by simpa using hres.symm
  obtain rfl : res' = _ := by simpa using hres'.symm
  show (recs.map fun rec => (record_spec _ ndir rec).map (npRoll (ndir / 2))) = _
  simp only [List.map_map]
  apply List.map_congr_left
  intro rec _
  rw [record_spec_shift ndir h2 j rec]
  simp only [Function.comp, List.map_map]
  apply List.map_congr_left
  intro row _
  exact npRoll_comm (ndir / 2) j row

theorem claim_C4_witness :
    (SpecResult.mk [] (List.ofFn fun j : Fin 4 =>
        linspace 0 (360 - 360 / ((4 : ℕ) : ℝ)) 4 j)).energy =
      (SpecResult.mk [] (List.ofFn fun j : Fin 4 =>
        linspace 0 (360 - 360 / ((4 : ℕ) : ℝ)) 4 j)).energy.map
        fun plane => plane.map (npRoll 1) :=
  claim_C4 4 (by norm_num) (by norm_num) 1 [] _ _
    (compute_spectrum_eq_ok (((1 : ℕ) : ℝ) * (2 * Real.pi / ((4 : ℕ) : ℝ))) [] 4
      (by norm_num) (by norm_num))
    (compute_spectrum_eq_ok 0 [] 4 (by norm_num) (by norm_num))

end Wavedroid
